import Mathlib

/-!
Verification development for the monios session & queue orchestration layer.

The repository sources under version control here are the browser client
(React components: the chat App, the Terminal component in two variants,
the FileExplorer, the auth and viewer glue).  The server side (Session
Registry, Admission Queue, Channel Multiplexer, Execution Adapters) is not
part of these sources; where a property concerns the server it is modelled
from the specification text, and each such definition carries a doc comment
saying so.  Everything else is translated from the client sources.
-/

/-! ## Spec-modelled Admission Queue (spec section 4.2)

The server-side Admission Queue is not in the sources; the following state
machine is modelled from the spec: states queued, processing, completed,
error, cancelled; submit with capacity check; start of the next queued
message only when none is processing; terminal result arrival.
-/

/-- Status of a QueuedMessage, from the spec state machine (section 4.2). -/
inductive QStatus where
  | queuedS
  | processingS
  | completedS
  | failedS
  | cancelledS
deriving DecidableEq, Repr

/-- A QueuedMessage as held by the Admission Queue: identifier and status. -/
structure QMsg where
  mid : Nat
  st : QStatus
deriving DecidableEq, Repr

/-- Outbound events emitted by the queue.  queuedEv models the normal
admission event queued with message id and position; queuedFullEv models
the rejection event queued with status queue_full carrying the current
queue size and the configured maximum; startEv models processing_started;
finishEv models the terminal result (completed or error). -/
inductive QEvent where
  | queuedEv (mid pos : Nat)
  | queuedFullEv (mid qsize maxq : Nat)
  | startEv (mid : Nat)
  | finishEv (mid : Nat)
deriving DecidableEq, Repr

/-- Modelled from the spec: the per-session Admission Queue state.  msgs is
every admitted message in submission order with its current status; maxq is
the configured capacity; evlog is the chronological log of emitted events. -/
structure QueueState where
  msgs : List QMsg
  maxq : Nat
  evlog : List QEvent
deriving DecidableEq, Repr

def isQueuedB (m : QMsg) : Bool := m.st == QStatus.queuedS

def isProcessingB (m : QMsg) : Bool := m.st == QStatus.processingS

/-- Number of messages currently in queued state (the queue length of the
spec: the bounded FIFO of pending work items). -/
def queueLen (l : List QMsg) : Nat := l.countP isQueuedB

/-- Number of messages currently in processing state. -/
def procCount (l : List QMsg) : Nat := l.countP isProcessingB

/-- Modelled from the spec: submit(message) — if queue length is at or above
the configured maximum, reject with queue_full reporting current size and
maximum, without enqueuing; else append with status queued and emit queued
with position = current length. -/
def qsubmit (s : QueueState) (mid : Nat) : QueueState :=
  if s.maxq ≤ queueLen s.msgs then
    { s with evlog := s.evlog ++ [QEvent.queuedFullEv mid (queueLen s.msgs) s.maxq] }
  else
    { s with msgs := s.msgs ++ [⟨mid, QStatus.queuedS⟩],
             evlog := s.evlog ++ [QEvent.queuedEv mid (queueLen s.msgs + 1)] }

/-- Mark the first message in queued state as processing, returning the new
list and the id of the message started, if any message was queued. -/
def markFirstQueued : List QMsg → Option (List QMsg × Nat)
  | [] => none
  | m :: rest =>
    if isQueuedB m then some (⟨m.mid, QStatus.processingS⟩ :: rest, m.mid)
    else (markFirstQueued rest).map (fun r => (m :: r.1, r.2))

/-- Mark the first message in processing state with the given terminal
status, returning the new list and the id of the message finished. -/
def markFirstProcessing (newSt : QStatus) : List QMsg → Option (List QMsg × Nat)
  | [] => none
  | m :: rest =>
    if isProcessingB m then some (⟨m.mid, newSt⟩ :: rest, m.mid)
    else (markFirstProcessing newSt rest).map (fun r => (m :: r.1, r.2))

/-- Modelled from the spec: when no message is processing, the next queued
message (FIFO head of the pending items) transitions to processing and
processing_started is emitted. -/
def qstart (s : QueueState) : QueueState :=
  if procCount s.msgs = 0 then
    match markFirstQueued s.msgs with
    | some r => { s with msgs := r.1, evlog := s.evlog ++ [QEvent.startEv r.2] }
    | none => s
  else s

/-- Modelled from the spec: external collaborator result arrival transitions
processing to completed (ok) or error (not ok); both are terminal. -/
def qfinish (s : QueueState) (ok : Bool) : QueueState :=
  match markFirstProcessing (if ok then QStatus.completedS else QStatus.failedS) s.msgs with
  | some r => { s with msgs := r.1, evlog := s.evlog ++ [QEvent.finishEv r.2] }
  | none => s

/-- Operations driving the queue: a submit call, the scheduler starting the
next message, a result arriving. -/
inductive QOp where
  | subOp (mid : Nat)
  | startOp
  | finOp (ok : Bool)
deriving DecidableEq, Repr

def qstep (s : QueueState) : QOp → QueueState
  | QOp.subOp mid => qsubmit s mid
  | QOp.startOp => qstart s
  | QOp.finOp ok => qfinish s ok

def qinit (maxq : Nat) : QueueState := ⟨[], maxq, []⟩

/-- Run a sequence of operations on a fresh session queue. -/
def qrun (maxq : Nat) (ops : List QOp) : QueueState := ops.foldl qstep (qinit maxq)

/-- Ids carried by processing_started events, in emission order. -/
def startedIds (log : List QEvent) : List Nat :=
  log.filterMap fun e => match e with | QEvent.startEv i => some i | _ => none

/-- Ids admitted to the queue (normal queued events), in emission order. -/
def acceptedIds (log : List QEvent) : List Nat :=
  log.filterMap fun e => match e with | QEvent.queuedEv i _ => some i | _ => none

/-- Reachability invariant of the queue: the message list splits into a
front segment of messages that have started (no longer queued) and a back
segment still queued; processing_started events name exactly the front
segment in order; admissions name the whole list in order; and at most one
message is processing. -/
def QInv (s : QueueState) : Prop :=
  ∃ d p, s.msgs = d ++ p ∧
    (∀ m ∈ d, isQueuedB m = false) ∧
    (∀ m ∈ p, isQueuedB m = true) ∧
    startedIds s.evlog = d.map QMsg.mid ∧
    acceptedIds s.evlog = d.map QMsg.mid ++ p.map QMsg.mid ∧
    procCount s.msgs ≤ 1

/-- A concrete full queue (capacity 1, one queued message) used by the C2
witness. -/
def c2FullState : QueueState := ⟨[⟨1, QStatus.queuedS⟩], 1, []⟩

/-! ## JSON model (terminal channel frame disambiguation)

The terminal client distinguishes control frames from raw passthrough with
a brace fast-path followed by JSON.parse (src/frontend/src/Terminal.tsx,
ws.onmessage).  The following is an executable model of JSON.parse: the
JSON grammar, whitespace allowed around tokens, the whole input consumed. -/

inductive Json where
  | jnull
  | jbool (b : Bool)
  | jnum (lexeme : String)
  | jstr (s : String)
  | jarr (xs : List Json)
  | jobj (fields : List (String × Json))

def isJsonWs (c : Char) : Bool := c == ' ' || c == '\t' || c == '\n' || c == '\r'

def skipWs (cs : List Char) : List Char := cs.dropWhile isJsonWs

def hexVal (c : Char) : Option Nat :=
  if c.isDigit then some (c.toNat - 48)
  else if 'a' ≤ c then (if c ≤ 'f' then some (c.toNat - 87) else none)
  else if 'A' ≤ c then (if c ≤ 'F' then some (c.toNat - 55) else none)
  else none

/-- Parse the body of a JSON string after the opening double quote, with
escape sequences, returning the decoded characters and the remainder. -/
def parseStringBody : List Char → Option (List Char × List Char)
  | [] => none
  | c :: rest =>
    if c == '"' then some ([], rest)
    else if c == '\\' then
      match rest with
      | [] => none
      | e :: rest2 =>
        if e == '"' then (parseStringBody rest2).map (fun r => ('"' :: r.1, r.2))
        else if e == '\\' then (parseStringBody rest2).map (fun r => ('\\' :: r.1, r.2))
        else if e == '/' then (parseStringBody rest2).map (fun r => ('/' :: r.1, r.2))
        else if e == 'b' then (parseStringBody rest2).map (fun r => ('\x08' :: r.1, r.2))
        else if e == 'f' then (parseStringBody rest2).map (fun r => ('\x0c' :: r.1, r.2))
        else if e == 'n' then (parseStringBody rest2).map (fun r => ('\n' :: r.1, r.2))
        else if e == 'r' then (parseStringBody rest2).map (fun r => ('\r' :: r.1, r.2))
        else if e == 't' then (parseStringBody rest2).map (fun r => ('\t' :: r.1, r.2))
        else if e == 'u' then
          match rest2 with
          | h1 :: h2 :: h3 :: h4 :: rest3 =>
            match hexVal h1, hexVal h2, hexVal h3, hexVal h4 with
            | some a, some b, some c2, some d =>
              (parseStringBody rest3).map
                (fun r => (Char.ofNat (a * 4096 + b * 256 + c2 * 16 + d) :: r.1, r.2))
            | _, _, _, _ => none
          | _ => none
        else none
    else (parseStringBody rest).map (fun r => (c :: r.1, r.2))

def spanDigits (cs : List Char) : List Char × List Char :=
  (cs.takeWhile Char.isDigit, cs.dropWhile Char.isDigit)

def parseIntPart : List Char → Option (List Char × List Char)
  | [] => none
  | c :: rest =>
    if c == '0' then some (['0'], rest)
    else if c.isDigit then
      let r := spanDigits rest
      some (c :: r.1, r.2)
    else none

def parseFracPart (cs : List Char) : Option (List Char × List Char) :=
  match cs with
  | '.' :: rest =>
    let r := spanDigits rest
    if r.1.isEmpty then none else some ('.' :: r.1, r.2)
  | _ => some ([], cs)

def parseExpPart (cs : List Char) : Option (List Char × List Char) :=
  match cs with
  | e :: rest =>
    if e == 'e' || e == 'E' then
      match rest with
      | s :: rest2 =>
        if s == '+' || s == '-' then
          let r := spanDigits rest2
          if r.1.isEmpty then none else some (e :: s :: r.1, r.2)
        else
          let r := spanDigits rest
          if r.1.isEmpty then none else some (e :: r.1, r.2)
      | [] => none
    else some ([], cs)
  | [] => some ([], cs)

/-- Lex a JSON number, returning its lexeme and the remainder. -/
def parseNumberLex (cs : List Char) : Option (String × List Char) :=
  let sr := match cs with
    | '-' :: r => (['-'], r)
    | _ => (([] : List Char), cs)
  match parseIntPart sr.2 with
  | none => none
  | some (ip, cs2) =>
    match parseFracPart cs2 with
    | none => none
    | some (fp, cs3) =>
      match parseExpPart cs3 with
      | none => none
      | some (ep, cs4) => some (String.mk (sr.1 ++ ip ++ fp ++ ep), cs4)

mutual

def parseVal : Nat → List Char → Option (Json × List Char)
  | 0, _ => none
  | fuel + 1, cs =>
    match skipWs cs with
    | [] => none
    | c :: rest =>
      if c == '\x7b' then
        match skipWs rest with
        | '\x7d' :: rest2 => some (Json.jobj [], rest2)
        | _ => (parseObjItems fuel rest).map (fun r => (Json.jobj r.1, r.2))
      else if c == '[' then
        match skipWs rest with
        | ']' :: rest2 => some (Json.jarr [], rest2)
        | _ => (parseArrItems fuel rest).map (fun r => (Json.jarr r.1, r.2))
      else if c == '"' then
        (parseStringBody rest).map (fun r => (Json.jstr (String.mk r.1), r.2))
      else if c == 'n' then
        match rest with
        | 'u' :: 'l' :: 'l' :: rest2 => some (Json.jnull, rest2)
        | _ => none
      else if c == 't' then
        match rest with
        | 'r' :: 'u' :: 'e' :: rest2 => some (Json.jbool true, rest2)
        | _ => none
      else if c == 'f' then
        match rest with
        | 'a' :: 'l' :: 's' :: 'e' :: rest2 => some (Json.jbool false, rest2)
        | _ => none
      else
        (parseNumberLex (c :: rest)).map (fun r => (Json.jnum r.1, r.2))

def parseArrItems : Nat → List Char → Option (List Json × List Char)
  | 0, _ => none
  | fuel + 1, cs =>
    match parseVal fuel cs with
    | none => none
    | some (v, rest) =>
      match skipWs rest with
      | ',' :: rest2 =>
        match parseArrItems fuel rest2 with
        | some (vs, rest3) => some (v :: vs, rest3)
        | none => none
      | ']' :: rest2 => some ([v], rest2)
      | _ => none

def parseObjItems : Nat → List Char → Option (List (String × Json) × List Char)
  | 0, _ => none
  | fuel + 1, cs =>
    match skipWs cs with
    | '"' :: rest =>
      match parseStringBody rest with
      | none => none
      | some (kcs, rest2) =>
        match skipWs rest2 with
        | ':' :: rest3 =>
          match parseVal fuel rest3 with
          | none => none
          | some (v, rest4) =>
            match skipWs rest4 with
            | ',' :: rest5 =>
              match parseObjItems fuel rest5 with
              | some (fs, rest6) => some ((String.mk kcs, v) :: fs, rest6)
              | none => none
            | '\x7d' :: rest5 => some ([(String.mk kcs, v)], rest5)
            | _ => none
        | _ => none
    | _ => none

end

/-- Model of JSON.parse: parse one JSON value, allow trailing whitespace,
fail if anything else is left over. -/
def jsonParse (s : String) : Option Json :=
  match parseVal (s.length + 1) s.toList with
  | some (v, rest) => if (skipWs rest).isEmpty then some v else none
  | none => none

/-- Property access on a parsed JSON value; later duplicate keys shadow
earlier ones, as in JavaScript object construction. -/
def jfield (v : Json) (k : String) : Option Json :=
  match v with
  | Json.jobj fs => (fs.filter (fun f => f.1 == k)).getLast?.map (fun f => f.2)
  | _ => none

def jstrField (v : Json) (k : String) : Option String :=
  match jfield v k with
  | some (Json.jstr s) => some s
  | _ => none

/-- True exactly when the parsed value is an object whose type property is
the given string — the model of (msg.type === t) after JSON.parse. -/
def jTypeIs (v : Json) (t : String) : Bool :=
  match jfield v "type" with
  | some (Json.jstr s) => s == t
  | _ => false

/-- Model of event.data.startsWith applied to the one-character left-brace
prefix: the frame is nonempty and its first character is a left brace. -/
def startsWithBrace (s : String) : Bool :=
  match s.toList with
  | c :: _ => c == '\x7b'
  | [] => false

/-- What the terminal client does with one received frame: recognize the
connected control envelope, recognize the error control envelope, or write
the frame to the terminal as raw passthrough output. -/
inductive TermAction where
  | ctlConnected (spriteName : Option String)
  | ctlError (message : Option String)
  | writeRaw (s : String)
deriving DecidableEq, Repr

/-- The terminal frame disambiguation, from src/frontend/src/Terminal.tsx
(ws.onmessage): frames whose first character is a left brace are tried as
JSON; a parsed object with type connected or type error is handled as a
control message, anything else — parse failure, non-brace start, or other
shapes — is written to the terminal as raw output. -/
def handleTermFrame (s : String) : TermAction :=
  if startsWithBrace s then
    match jsonParse s with
    | some v =>
      if jTypeIs v "connected" then TermAction.ctlConnected (jstrField v "sprite_name")
      else if jTypeIs v "error" then TermAction.ctlError (jstrField v "message")
      else TermAction.writeRaw s
    | none => TermAction.writeRaw s
  else TermAction.writeRaw s

def isControlAction (a : TermAction) : Bool :=
  match a with
  | TermAction.writeRaw _ => false
  | _ => true

/-- Following the spec's words (section 4.3): a frame parses as the expected
structured envelope when JSON.parse succeeds on it and the result is an
object whose type is one of the terminal control kinds. -/
def parsesAsControlEnvelope (s : String) : Bool :=
  match jsonParse s with
  | some v => jTypeIs v "connected" || jTypeIs v "error"
  | none => false

/-! ## Shared helpers modelling small pieces of JavaScript semantics -/

/-- JavaScript a || b for an optional string: the default is used when the
value is absent or the empty string (both falsy). -/
def jsOr (o : Option String) (d : String) : String :=
  match o with
  | some s2 => if s2 == "" then d else s2
  | none => d

/-- Template-literal interpolation of a possibly-undefined number. -/
def optNatText (o : Option Nat) : String :=
  match o with
  | some n => toString n
  | none => "undefined"

/-- Template-literal interpolation of a possibly-undefined string. -/
def optStrText (o : Option String) : String :=
  match o with
  | some s2 => s2
  | none => "undefined"

/-- JavaScript truthiness of an optional string (undefined and the empty
string are falsy). -/
def truthyStr (o : Option String) : Bool :=
  match o with
  | some s2 => !(s2 == "")
  | none => false

/-- Model of String.prototype.trim: strip whitespace from both ends. -/
def jsTrim (s : String) : String :=
  String.mk (((s.toList.dropWhile Char.isWhitespace).reverse.dropWhile
    Char.isWhitespace).reverse)

/-! ## Terminal connection model (src/frontend/src/Terminal.tsx and the
older unnamed Terminal variant in the sources) -/

inductive TermFrame where
  | connectF (uid : String)
  | resizeF (cols rows : Nat)
  | dataF (s : String)
deriving DecidableEq, Repr

inductive TermEv where
  | openEv
  | closeEv
  | dataEv (s : String)
  | resizeEv (cols rows : Nat)
  | recvEv (frame : String)
deriving DecidableEq, Repr

/-- The client-side connection state of one terminal component: socket
open, the connectedToSpriteRef handshake flag, the frames sent on the
transport in order, the text written to the xterm screen, and the delay of
the reconnect attempt scheduled by the last close, if any. -/
structure TermState where
  opened : Bool
  connectedToSprite : Bool
  sent : List TermFrame
  screen : List String
  reconnectDelayMs : Option Nat
deriving DecidableEq, Repr

def termInit : TermState := ⟨false, false, [], [], none⟩

/-- One step of the terminal client in src/frontend/src/Terminal.tsx.  cols
and rows are the current xterm dimensions, used for the initial resize sent
on receipt of the connected control frame.  Keystrokes and resizes are sent
only when the socket is open and connectedToSpriteRef is set; the connected
frame sets that flag; close clears it and schedules reconnection after the
fixed 2000 ms delay. -/
def termStep (uid : String) (cols rows : Nat) (s : TermState) : TermEv → TermState
  | TermEv.openEv => { s with opened := true, sent := s.sent ++ [TermFrame.connectF uid] }
  | TermEv.closeEv =>
    { s with opened := false, connectedToSprite := false, reconnectDelayMs := some 2000 }
  | TermEv.dataEv d =>
    if s.opened && s.connectedToSprite then
      { s with sent := s.sent ++ [TermFrame.dataF d] }
    else s
  | TermEv.resizeEv c r =>
    if s.opened && s.connectedToSprite then
      { s with sent := s.sent ++ [TermFrame.resizeF c r] }
    else s
  | TermEv.recvEv f =>
    match handleTermFrame f with
    | TermAction.ctlConnected _ =>
      { s with connectedToSprite := true, sent := s.sent ++ [TermFrame.resizeF cols rows] }
    | TermAction.ctlError m =>
      { s with screen := s.screen ++ ["\r\n\x1b[31mError: " ++ optStrText m ++ "\x1b[0m\r\n"] }
    | TermAction.writeRaw raw => { s with screen := s.screen ++ [raw] }

def termRun (uid : String) (cols rows : Nat) (evs : List TermEv) : TermState :=
  evs.foldl (termStep uid cols rows) termInit

/-- The frame disambiguation of the older unnamed Terminal variant in the
sources: same brace fast-path and type dispatch; no sprite name; the error
branch reads the error property and only logs. -/
def handleTermFrameOld (s : String) : TermAction :=
  if startsWithBrace s then
    match jsonParse s with
    | some v =>
      if jTypeIs v "connected" then TermAction.ctlConnected none
      else if jTypeIs v "error" then TermAction.ctlError (jstrField v "error")
      else TermAction.writeRaw s
    | none => TermAction.writeRaw s
  else TermAction.writeRaw s

/-- One step of the older unnamed Terminal variant: keystrokes and resizes
are sent whenever the socket is open — there is no connected-handshake
gate on sending. -/
def termStepOld (uid : String) (cols rows : Nat) (s : TermState) : TermEv → TermState
  | TermEv.openEv => { s with opened := true, sent := s.sent ++ [TermFrame.connectF uid] }
  | TermEv.closeEv =>
    { s with opened := false, connectedToSprite := false, reconnectDelayMs := some 2000 }
  | TermEv.dataEv d =>
    if s.opened then { s with sent := s.sent ++ [TermFrame.dataF d] } else s
  | TermEv.resizeEv c r =>
    if s.opened then { s with sent := s.sent ++ [TermFrame.resizeF c r] } else s
  | TermEv.recvEv f =>
    match handleTermFrameOld f with
    | TermAction.ctlConnected _ =>
      { s with connectedToSprite := true, sent := s.sent ++ [TermFrame.resizeF cols rows] }
    | TermAction.ctlError _ => s
    | TermAction.writeRaw raw => { s with screen := s.screen ++ [raw] }

def termRunOld (uid : String) (cols rows : Nat) (evs : List TermEv) : TermState :=
  evs.foldl (termStepOld uid cols rows) termInit

/-- Well-formedness of a terminal event trace: a receive event is delivered
only while the socket is open (message events fire only between open and
close). -/
def termWfAux : Bool → List TermEv → Bool
  | _, [] => true
  | _, TermEv.openEv :: rest => termWfAux true rest
  | _, TermEv.closeEv :: rest => termWfAux false rest
  | op, TermEv.recvEv _ :: rest => op && termWfAux op rest
  | op, TermEv.dataEv _ :: rest => termWfAux op rest
  | op, TermEv.resizeEv _ _ :: rest => termWfAux op rest

def termWf (evs : List TermEv) : Bool := termWfAux false evs

/-- An event that delivers the connected handshake response frame. -/
def recvConnectedEv (e : TermEv) : Bool :=
  match e with
  | TermEv.recvEv f =>
    match handleTermFrame f with
    | TermAction.ctlConnected _ => true
    | _ => false
  | _ => false

/-! ## Chat client model (the App component, version using userIdRef) -/

inductive CRole where
  | userR
  | assistantR
  | systemR
  | toolR
deriving DecidableEq, Repr

inductive CStatus where
  | sendingC
  | queuedC
  | processingC
  | completedC
  | errorC
  | cancelledC
deriving DecidableEq, Repr

/-- A chat transcript entry (the App Message record; the fields the
modelled claims touch — tool payloads are not modelled). -/
structure CMsg where
  id : String
  role : CRole
  content : String
  status : Option CStatus
  queuePosition : Option Nat
deriving DecidableEq, Repr

/-- Parsed inbound chat socket events: the WebSocketMessage shapes
dispatched by handleWebSocketMessage, restricted to the cases the modelled
claims touch (tool_use, tool_result and response are outside them). -/
inductive WSEvent where
  | connectedW
  | queuedW (message_id : Option String) (status : Option String)
      (queue_position : Option Nat) (queue_size : Option Nat)
  | processingStartedW (message_id : Option String) (queue_remaining : Option Nat)
  | errorW (message_id : Option String) (error : Option String)
  | cancelledW (message_id : Option String) (reason : Option String)
  | statusW (queue_size : Option Nat) (is_processing : Option Bool)
deriving DecidableEq, Repr

/-- The React state of the chat App that the modelled handlers touch. -/
structure ChatAppState where
  messages : List CMsg
  errorMsg : Option String
  wsConnected : Bool
  queueSize : Nat
  queueProcessing : Bool
deriving DecidableEq, Repr

def chatAppInit : ChatAppState := ⟨[], none, false, 0, false⟩

/-- updateMessageStatus from the App component: set status and
queuePosition on every transcript entry with the given id (queuePosition
is overwritten even when the new value is absent, as the object spread
does). -/
def updateMessageStatus (msgs : List CMsg) (mid : String) (st : CStatus)
    (qp : Option Nat) : List CMsg :=
  msgs.map fun m => if m.id == mid then { m with status := some st, queuePosition := qp } else m

/-- The chat socket message handler (handleWebSocketMessage in the App
component) for the modelled event kinds.  freshId stands for the
generateId() call used when the cancelled branch appends a system
transcript entry. -/
def handleWS (freshId : String) (s : ChatAppState) : WSEvent → ChatAppState
  | WSEvent.connectedW => { s with wsConnected := true, errorMsg := none }
  | WSEvent.queuedW mid st qp qs =>
    if truthyStr mid then
      let newStatus := if st == some "skipped" then CStatus.cancelledC else CStatus.queuedC
      let s2 := { s with messages := updateMessageStatus s.messages (mid.getD "") newStatus qp }
      if st == some "queue_full" then
        { s2 with errorMsg := some ("Queue is full (max " ++ optNatText qs ++ " messages)") }
      else s2
    else s
  | WSEvent.processingStartedW mid qr =>
    if truthyStr mid then
      { s with messages := updateMessageStatus s.messages (mid.getD "") CStatus.processingC none,
               queueProcessing := true,
               queueSize := qr.getD s.queueSize }
    else s
  | WSEvent.errorW mid err =>
    let s2 :=
      if truthyStr mid then
        { s with messages := updateMessageStatus s.messages (mid.getD "") CStatus.errorC none }
      else s
    { s2 with errorMsg := some (jsOr err "Unknown error"), queueProcessing := false }
  | WSEvent.cancelledW mid reason =>
    let s2 :=
      if truthyStr mid then
        { s with messages :=
            updateMessageStatus s.messages (mid.getD "") CStatus.cancelledC none ++
              [⟨freshId, CRole.systemR, "Message cancelled: " ++ jsOr reason "cancelled",
                none, none⟩] }
      else s
    { s2 with queueProcessing := false }
  | WSEvent.statusW qs ip =>
    { s with queueSize := qs.getD 0, queueProcessing := ip.getD false }

/-- Model of generateId: Math.random().toString(36).substring(2, 9).  The
random draw is represented by its base-36 fractional digit expansion with
trailing zeros trimmed (what Number.prototype.toString prints after the 0.
prefix); the id is made of the first seven of those digit characters. -/
def base36Char (n : Nat) : Char := Char.ofNat (if n < 10 then 48 + n else 87 + n)

def genId (draw : List Nat) : String := String.mk ((draw.take 7).map base36Char)

inductive ChatFrame where
  | connectCF (uid : String)
  | messageCF (content message_id : String)
deriving DecidableEq, Repr

inductive ChatEv where
  | openC
  | closeC
  | submitC (content : String) (draw : List Nat)
  | recvC (freshId : String) (w : WSEvent)
deriving DecidableEq, Repr

/-- The chat connection state: socket open, the App state, the frames sent
on the transport in order, and the delay of the reconnect attempt scheduled
by the last close, if any. -/
structure ChatConn where
  opened : Bool
  app : ChatAppState
  sent : List ChatFrame
  reconnectDelayMs : Option Nat
deriving DecidableEq, Repr

def chatConnInit : ChatConn := ⟨false, chatAppInit, [], none⟩

/-- One step of the chat client connection (the App component): onopen
sends the connect envelope first; sendMessage refuses when the socket is
not open (it only sets an error and triggers a reconnect attempt),
otherwise appends the user transcript entry in sending state and sends the
message frame under a fresh generateId; onclose schedules reconnection
after the fixed 3000 ms delay; received events go to
handleWebSocketMessage. -/
def chatStep (uid : String) (s : ChatConn) : ChatEv → ChatConn
  | ChatEv.openC => { s with opened := true, sent := s.sent ++ [ChatFrame.connectCF uid] }
  | ChatEv.closeC =>
    { s with opened := false, app := { s.app with wsConnected := false },
             reconnectDelayMs := some 3000 }
  | ChatEv.submitC content draw =>
    let trimmed := jsTrim content
    if trimmed == "" then s
    else if !s.opened then
      { s with app := { s.app with errorMsg := some "Not connected. Reconnecting..." } }
    else
      let newMsgs := s.app.messages ++
        [⟨genId draw, CRole.userR, trimmed, some CStatus.sendingC, none⟩]
      { s with
          app := { s.app with errorMsg := none, messages := newMsgs },
          sent := s.sent ++ [ChatFrame.messageCF trimmed (genId draw)] }
  | ChatEv.recvC fid w => { s with app := handleWS fid s.app w }

def chatRun (uid : String) (evs : List ChatEv) : ChatConn :=
  evs.foldl (chatStep uid) chatConnInit

/-! ## File explorer client model (src/frontend/src/FileExplorer.tsx) -/

/-- The TreeNode shape of the files channel. -/
inductive TreeNode where
  | file (name path : String)
  | dir (name path : String) (children : List TreeNode)

inductive FilesFrame where
  | connectFF (uid : String)
  | subscribeFF
  | getTreeFF (path : String)
deriving DecidableEq, Repr

inductive FilesEv where
  | openFE
  | closeFE
  | recvConnectedFE
  | recvTreeFE (t : TreeNode)
  | recvFileEventFE
  | recvErrorFE (err : String)
  | recvBadFE
  | retryFireFE
  | refreshFE

/-- The file explorer connection state: socket open, the connected state,
the last tree snapshot, the displayed error, the loading flag, whether the
1500 ms initialization retry timer is pending, the frames sent in order,
and the delay of the reconnect attempt scheduled by the last close. -/
structure FilesState where
  opened : Bool
  connected : Bool
  tree : Option TreeNode
  errorMsg : Option String
  isLoading : Bool
  retryPending : Bool
  sent : List FilesFrame
  reconnectDelayMs : Option Nat

def filesInit : FilesState := ⟨false, false, none, none, true, false, [], none⟩

/-- Does the pattern occur contiguously anywhere in the list? -/
def containsPat (pat : List Char) : List Char → Bool
  | [] => pat.isEmpty
  | c :: rest => ((c :: rest).take pat.length == pat) || containsPat pat rest

/-- Model of String.prototype.includes. -/
def jsIncludes (s pat : String) : Bool := containsPat pat.toList s.toList

/-- The retryable initialization error recognizer from FileExplorer.tsx:
the error mentions Sandbox not initialized or equals Not initialized. -/
def isRetryableFilesError (err : String) : Bool :=
  jsIncludes err "Sandbox not initialized" || err == "Not initialized"

/-- One step of the file explorer connection (FileExplorer.tsx): onopen
sends connect first; on connected it subscribes; a tree message stores the
snapshot; a file_event triggers a fresh get_tree; an initialization error
arms the retry timer, whose firing re-requests get_tree on the same open
socket without a new connect handshake; onclose schedules reconnection
after the fixed 2000 ms delay. -/
def filesStep (uid : String) (s : FilesState) : FilesEv → FilesState
  | FilesEv.openFE =>
    { s with opened := true, isLoading := true, errorMsg := none,
             sent := s.sent ++ [FilesFrame.connectFF uid] }
  | FilesEv.closeFE =>
    { s with opened := false, connected := false, isLoading := true,
             retryPending := false, reconnectDelayMs := some 2000 }
  | FilesEv.recvConnectedFE =>
    { s with connected := true, errorMsg := none, isLoading := true,
             retryPending := false, sent := s.sent ++ [FilesFrame.subscribeFF] }
  | FilesEv.recvTreeFE t =>
    { s with tree := some t, errorMsg := none, isLoading := false, retryPending := false }
  | FilesEv.recvFileEventFE =>
    if s.opened then { s with sent := s.sent ++ [FilesFrame.getTreeFF ""] } else s
  | FilesEv.recvErrorFE err =>
    if isRetryableFilesError err then
      { s with errorMsg := some "Not initialized", isLoading := false, retryPending := true }
    else
      { s with errorMsg := some err, isLoading := false }
  | FilesEv.recvBadFE => s
  | FilesEv.retryFireFE =>
    if s.retryPending then
      if s.opened then
        { s with retryPending := false, isLoading := true,
                 sent := s.sent ++ [FilesFrame.getTreeFF ""] }
      else { s with retryPending := false }
    else s
  | FilesEv.refreshFE =>
    if s.opened then
      { s with isLoading := true, errorMsg := none,
               sent := s.sent ++ [FilesFrame.getTreeFF ""] }
    else s

def filesRun (uid : String) (evs : List FilesEv) : FilesState :=
  evs.foldl (filesStep uid) filesInit

/-- Well-formedness of a files event trace: receive events are delivered
only while the socket is open. -/
def filesWfAux : Bool → List FilesEv → Bool
  | _, [] => true
  | _, FilesEv.openFE :: rest => filesWfAux true rest
  | _, FilesEv.closeFE :: rest => filesWfAux false rest
  | op, FilesEv.recvConnectedFE :: rest => op && filesWfAux op rest
  | op, FilesEv.recvTreeFE _ :: rest => op && filesWfAux op rest
  | op, FilesEv.recvFileEventFE :: rest => op && filesWfAux op rest
  | op, FilesEv.recvErrorFE _ :: rest => op && filesWfAux op rest
  | op, FilesEv.recvBadFE :: rest => op && filesWfAux op rest
  | op, FilesEv.retryFireFE :: rest => filesWfAux op rest
  | op, FilesEv.refreshFE :: rest => filesWfAux op rest

def filesWf (evs : List FilesEv) : Bool := filesWfAux false evs

/-! ## Spec-modelled server side: file-watch adapter, registry, handshake -/

/-- Modelled from the spec: the server-side file-watch adapter state (the
server is not among the sources under src) — connect-handshake completion,
the workspace initialization flag, and the current workspace tree. -/
structure FilesAdapter where
  handshaken : Bool
  initialized : Bool
  workspace : TreeNode

/-- Outbound answers of the file-watch adapter to a get_tree request. -/
inductive FilesOut where
  | treeOut (t : TreeNode)
  | errorOut (reason : String)

/-- Modelled from the spec: a get_tree request on the files channel —
traffic before the handshake is rejected with an error; an uninitialized
workspace yields the distinguishable retryable error; otherwise the
current full snapshot is returned. -/
def handleFilesGetTree (st : FilesAdapter) : FilesOut :=
  if !st.handshaken then FilesOut.errorOut "Not connected"
  else if !st.initialized then FilesOut.errorOut "Sandbox not initialized"
  else FilesOut.treeOut st.workspace

/-- Modelled from the spec: the Session Registry map from user key to the
Session's queue, with idempotent getOrCreate. -/
def getOrCreate (maxq : Nat) (reg : List (String × QueueState)) (uid : String) :
    QueueState × List (String × QueueState) :=
  match reg.find? (fun e => e.1 == uid) with
  | some e => (e.2, reg)
  | none => (qinit maxq, (uid, qinit maxq) :: reg)

def sessionIsProcessing (s : QueueState) : Bool := !(procCount s.msgs == 0)

/-- Modelled from the spec: a successful chat handshake attaches the
transport (creating the Session via the Registry if absent) and
immediately replays current queue status — the connected event followed by
a status event carrying the session's queue size and processing flag. -/
def chatHandshake (maxq : Nat) (reg : List (String × QueueState)) (uid : String) :
    QueueState × (List (String × QueueState) × List WSEvent) :=
  let r := getOrCreate maxq reg uid
  (r.1, (r.2, [WSEvent.connectedW,
    WSEvent.statusW (some (queueLen r.1.msgs)) (some (sessionIsProcessing r.1))]))

/-- The concrete chat App state used by the C10 witness: one user message
with id m1 awaiting admission. -/
def c10State : ChatAppState :=
  ⟨[⟨"m1", CRole.userR, "hi", some CStatus.sendingC, none⟩], none, true, 0, false⟩

/-! ## Theorems -/

lemma startedIds_append (a b : List QEvent) :
    startedIds (a ++ b) = startedIds a ++ startedIds b := by
  simp [startedIds, List.filterMap_append]

lemma acceptedIds_append (a b : List QEvent) :
    acceptedIds (a ++ b) = acceptedIds a ++ acceptedIds b := by
  simp [acceptedIds, List.filterMap_append]

lemma markFirstQueued_none (d : List QMsg)
    (hd : ∀ m ∈ d, isQueuedB m = false) : markFirstQueued d = none := by
  induction d with
  | nil => simp [markFirstQueued]
  | cons a d ih =>
    have ha : isQueuedB a = false := hd a (by simp)
    have ih' := ih (fun m hm => hd m (by simp [hm]))
    simp [markFirstQueued, ha, ih']

lemma markFirstQueued_split (d : List QMsg) (m : QMsg) (rest : List QMsg)
    (hd : ∀ x ∈ d, isQueuedB x = false) (hm : isQueuedB m = true) :
    markFirstQueued (d ++ m :: rest) =
      some (d ++ ⟨m.mid, QStatus.processingS⟩ :: rest, m.mid) := by
  induction d with
  | nil => simp [markFirstQueued, hm]
  | cons a d ih =>
    have ha : isQueuedB a = false := hd a (by simp)
    have ih' := ih (fun x hx => hd x (by simp [hx]))
    simp [markFirstQueued, ha, ih']

lemma markFirstProcessing_mid_map (ns : QStatus) (l l' : List QMsg) (i : Nat)
    (h : markFirstProcessing ns l = some (l', i)) :
    l'.map QMsg.mid = l.map QMsg.mid := by
  induction l generalizing l' with
  | nil => simp [markFirstProcessing] at h
  | cons m rest ih =>
    by_cases hm : isProcessingB m = true
    · simp [markFirstProcessing, hm] at h
      simp [← h.1]
    · simp [markFirstProcessing, hm] at h
      obtain ⟨r, hr, hl'⟩ := h
      have hmap := ih r hr
      simp [← hl', hmap]

lemma markFirstProcessing_nonqueued (ns : QStatus) (hns : (⟨0, ns⟩ : QMsg).st ≠ QStatus.queuedS)
    (l l' : List QMsg) (i : Nat)
    (hl : ∀ m ∈ l, isQueuedB m = false)
    (h : markFirstProcessing ns l = some (l', i)) :
    ∀ m ∈ l', isQueuedB m = false := by
  induction l generalizing l' with
  | nil => simp [markFirstProcessing] at h
  | cons m rest ih =>
    by_cases hm : isProcessingB m = true
    · simp [markFirstProcessing, hm] at h
      rw [← h.1]
      intro x hx
      rcases List.mem_cons.mp hx with hx | hx
      · subst hx
        simp [isQueuedB]
        intro hcon
        exact hns (by simpa using hcon)
      · exact hl x (by simp [hx])
    · simp [markFirstProcessing, hm] at h
      obtain ⟨r, hr, hl'⟩ := h
      intro x hx
      rw [← hl'] at hx
      rcases List.mem_cons.mp hx with hx | hx
      · subst hx
        exact hl x (by simp)
      · exact ih r (fun y hy => hl y (by simp [hy])) hr x hx

lemma markFirstProcessing_count (ns : QStatus) (hns : isProcessingB ⟨0, ns⟩ = false)
    (l l' : List QMsg) (i : Nat)
    (h : markFirstProcessing ns l = some (l', i)) :
    procCount l' + 1 = procCount l := by
  induction l generalizing l' with
  | nil => simp [markFirstProcessing] at h
  | cons m rest ih =>
    by_cases hm : isProcessingB m = true
    · simp [markFirstProcessing, hm] at h
      rw [← h.1]
      have : isProcessingB ⟨m.mid, ns⟩ = false := by
        simpa [isProcessingB] using hns
      simp [procCount, List.countP_cons, hm, this]
    · simp [markFirstProcessing, hm] at h
      obtain ⟨r, hr, hl'⟩ := h
      have hc := ih r hr
      rw [← hl']
      simp only [procCount, List.countP_cons, hm] at *
      simp only [if_neg hm]
      omega

lemma markFirstProcessing_split_right (ns : QStatus) (d p : List QMsg)
    (hp : ∀ m ∈ p, isProcessingB m = false) :
    markFirstProcessing ns (d ++ p) =
      (markFirstProcessing ns d).map (fun r => (r.1 ++ p, r.2)) := by
  induction d with
  | nil =>
    simp [markFirstProcessing]
    induction p with
    | nil => simp [markFirstProcessing]
    | cons m rest ih =>
      have hm : isProcessingB m = false := hp m (by simp)
      have ih' := ih (fun x hx => hp x (by simp [hx]))
      simp [markFirstProcessing, hm, ih']
  | cons a d ih =>
    by_cases ha : isProcessingB a = true
    · simp [markFirstProcessing, ha]
    · simp only [List.cons_append, markFirstProcessing, Bool.not_eq_true] at *
      simp only [if_neg (by simp [ha] : ¬(isProcessingB a = true)), List.append_eq]
      rw [ih]
      cases markFirstProcessing ns d <;> simp

lemma qsubmit_inv (s : QueueState) (mid : Nat) (h : QInv s) : QInv (qsubmit s mid) := by
  obtain ⟨d, p, hmsgs, hd, hp, hstart, hacc, hproc⟩ := h
  unfold qsubmit
  by_cases hfull : s.maxq ≤ queueLen s.msgs
  · simp only [if_pos hfull]
    refine ⟨d, p, hmsgs, hd, hp, ?_, ?_, hproc⟩
    · simpa [startedIds_append, startedIds] using hstart
    · simpa [acceptedIds_append, acceptedIds] using hacc
  · simp only [if_neg hfull]
    refine ⟨d, p ++ [⟨mid, QStatus.queuedS⟩], by simp [hmsgs], hd, ?_, ?_, ?_, ?_⟩
    · intro m hm
      rcases List.mem_append.mp hm with hm | hm
      · exact hp m hm
      · simp at hm
        subst hm
        simp [isQueuedB]
    · simpa [startedIds_append, startedIds] using hstart
    · rw [acceptedIds_append, hacc]
      simp [acceptedIds]
    · simpa [procCount, List.countP_append, isProcessingB] using hproc

lemma qstart_inv (s : QueueState) (h : QInv s) : QInv (qstart s) := by
  obtain ⟨d, p, hmsgs, hd, hp, hstart, hacc, hproc⟩ := h
  unfold qstart
  by_cases h0 : procCount s.msgs = 0
  · simp only [if_pos h0]
    cases p with
    | nil =>
      have hnone : markFirstQueued s.msgs = none := by
        rw [hmsgs]
        simpa using markFirstQueued_none d hd
      simp only [hnone]
      exact ⟨d, [], hmsgs, hd, hp, hstart, hacc, hproc⟩
    | cons m rest =>
      have hm : isQueuedB m = true := hp m (by simp)
      have hsplit : markFirstQueued s.msgs =
          some (d ++ ⟨m.mid, QStatus.processingS⟩ :: rest, m.mid) := by
        rw [hmsgs]
        exact markFirstQueued_split d m rest hd hm
      simp only [hsplit]
      refine ⟨d ++ [⟨m.mid, QStatus.processingS⟩], rest, by simp, ?_, ?_, ?_, ?_, ?_⟩
      · intro x hx
        rcases List.mem_append.mp hx with hx | hx
        · exact hd x hx
        · simp at hx
          subst hx
          simp [isQueuedB]
      · exact fun x hx => hp x (by simp [hx])
      · rw [startedIds_append, hstart]
        simp [startedIds]
      · rw [acceptedIds_append, hacc]
        simp [acceptedIds]
      · have hz := h0
        rw [hmsgs] at hz
        have hdz : List.countP isProcessingB d = 0 ∧
            List.countP isProcessingB (m :: rest) = 0 := by
          simp only [procCount, List.countP_append] at hz
          omega
        have hrz : List.countP isProcessingB rest = 0 := by
          have h2 := hdz.2
          simp only [List.countP_cons] at h2
          omega
        have hhead : isProcessingB ⟨m.mid, QStatus.processingS⟩ = true := by
          simp [isProcessingB]
        simp [procCount, List.countP_append, List.countP_cons, hhead]
        omega
  · simp only [if_neg h0]
    exact ⟨d, p, hmsgs, hd, hp, hstart, hacc, hproc⟩

lemma qfinish_inv (s : QueueState) (ok : Bool) (h : QInv s) : QInv (qfinish s ok) := by
  obtain ⟨d, p, hmsgs, hd, hp, hstart, hacc, hproc⟩ := h
  unfold qfinish
  have hpnp : ∀ m ∈ p, isProcessingB m = false := by
    intro m hm
    have hq := hp m hm
    simp [isQueuedB] at hq
    simp [isProcessingB, hq]
  have hsplit : markFirstProcessing (if ok then QStatus.completedS else QStatus.failedS) s.msgs =
      (markFirstProcessing (if ok then QStatus.completedS else QStatus.failedS) d).map
        (fun r => (r.1 ++ p, r.2)) := by
    rw [hmsgs]
    exact markFirstProcessing_split_right _ d p hpnp
  have hnsq : (⟨0, if ok then QStatus.completedS else QStatus.failedS⟩ : QMsg).st ≠
      QStatus.queuedS := by
    cases ok <;> simp
  have hnsp : isProcessingB ⟨0, if ok then QStatus.completedS else QStatus.failedS⟩ = false := by
    cases ok <;> simp [isProcessingB]
  cases hmd : markFirstProcessing (if ok then QStatus.completedS else QStatus.failedS) d with
  | none =>
    simp only [hsplit, hmd, Option.map_none']
    exact ⟨d, p, hmsgs, hd, hp, hstart, hacc, hproc⟩
  | some r =>
    obtain ⟨d2, i⟩ := r
    simp only [hsplit, hmd, Option.map_some']
    have hmap : d2.map QMsg.mid = d.map QMsg.mid :=
      markFirstProcessing_mid_map _ d d2 i hmd
    refine ⟨d2, p, rfl, ?_, hp, ?_, ?_, ?_⟩
    · exact markFirstProcessing_nonqueued _ hnsq d d2 i hd hmd
    · rw [startedIds_append, hstart]
      simp [startedIds, hmap]
    · rw [acceptedIds_append, hacc]
      simp [acceptedIds, hmap]
    · have hcnt : procCount d2 + 1 = procCount d :=
        markFirstProcessing_count _ hnsp d d2 i hmd
      have hpz : procCount p = 0 := by
        simp only [procCount]
        refine List.countP_eq_zero.mpr ?_
        intro a ha
        simp [hpnp a ha]
      have hdle : procCount d + procCount p ≤ 1 := by
        have := hproc
        rw [hmsgs] at this
        simpa [procCount, List.countP_append] using this
      simp only [procCount, List.countP_append] at hcnt hpz hdle ⊢
      omega

lemma qstep_inv (s : QueueState) (op : QOp) (h : QInv s) : QInv (qstep s op) := by
  cases op with
  | subOp mid => exact qsubmit_inv s mid h
  | startOp => exact qstart_inv s h
  | finOp ok => exact qfinish_inv s ok h

lemma qinit_inv (maxq : Nat) : QInv (qinit maxq) := by
  refine ⟨[], [], rfl, by simp, by simp, rfl, by simp [acceptedIds, qinit], ?_⟩
  simp [procCount, qinit]

lemma foldl_qstep_inv (ops : List QOp) (s : QueueState) (h : QInv s) :
    QInv (ops.foldl qstep s) := by
  induction ops generalizing s with
  | nil => exact h
  | cons op ops ih => exact ih _ (qstep_inv s op h)

lemma qrun_inv (maxq : Nat) (ops : List QOp) : QInv (qrun maxq ops) :=
  foldl_qstep_inv ops (qinit maxq) (qinit_inv maxq)

/-- C1: for every sequence of operations on one Session's admission queue
(modelled from the spec, since the server is not among the sources under
src), the processing_started events occur in exactly the submission (FIFO)
order — they form a prefix, in order, of the admitted message ids — and at
every instant at most one QueuedMessage of the Session is in processing
state. -/
theorem c1_fifo_and_single_flight (maxq : Nat) (ops : List QOp) :
    procCount (qrun maxq ops).msgs ≤ 1 ∧
    ∃ t, acceptedIds (qrun maxq ops).evlog = startedIds (qrun maxq ops).evlog ++ t := by
  obtain ⟨d, p, hmsgs, hd, hp, hstart, hacc, hproc⟩ := qrun_inv maxq ops
  exact ⟨hproc, ⟨p.map QMsg.mid, by rw [hacc, hstart]⟩⟩

/-- C2: a submit when the queue length is at or above the configured maximum
is rejected with a queued event carrying status queue_full together with the
current queue size and the configured maximum, the message is never
enqueued, and the queue length is unchanged; otherwise the message is
appended and a queued event with its position (the current length) is
emitted.  Modelled from the spec, since the server is not among the sources
under src. -/
theorem c2_queue_full_rejection (s : QueueState) (mid : Nat) :
    (s.maxq ≤ queueLen s.msgs →
      (qsubmit s mid).msgs = s.msgs ∧
      (qsubmit s mid).evlog = s.evlog ++ [QEvent.queuedFullEv mid (queueLen s.msgs) s.maxq] ∧
      queueLen (qsubmit s mid).msgs = queueLen s.msgs) ∧
    (queueLen s.msgs < s.maxq →
      (qsubmit s mid).msgs = s.msgs ++ [⟨mid, QStatus.queuedS⟩] ∧
      (qsubmit s mid).evlog = s.evlog ++ [QEvent.queuedEv mid (queueLen (qsubmit s mid).msgs)]) := by
  constructor
  · intro hfull
    simp [qsubmit, if_pos hfull]
  · intro hlt
    have hnf : ¬ s.maxq ≤ queueLen s.msgs := by omega
    have hlen : queueLen (s.msgs ++ [⟨mid, QStatus.queuedS⟩]) = queueLen s.msgs + 1 := by
      simp [queueLen, List.countP_append, isQueuedB]
    simp [qsubmit, if_neg hnf, hlen]

/-- Witness for C2: the full branch at a capacity-1 queue holding one
message, and the admission branch at a fresh capacity-2 queue. -/
theorem c2_queue_full_rejection_witness :
    ((qsubmit c2FullState 2).msgs = c2FullState.msgs ∧
      (qsubmit c2FullState 2).evlog =
        c2FullState.evlog ++ [QEvent.queuedFullEv 2 (queueLen c2FullState.msgs) c2FullState.maxq] ∧
      queueLen (qsubmit c2FullState 2).msgs = queueLen c2FullState.msgs) ∧
    ((qsubmit (qinit 2) 5).msgs = (qinit 2).msgs ++ [⟨5, QStatus.queuedS⟩] ∧
      (qsubmit (qinit 2) 5).evlog =
        (qinit 2).evlog ++ [QEvent.queuedEv 5 (queueLen (qsubmit (qinit 2) 5).msgs)]) :=
  ⟨(c2_queue_full_rejection c2FullState 2).1 (by decide),
   (c2_queue_full_rejection (qinit 2) 5).2 (by decide)⟩

/-- C4 counterexample: a connected control envelope with one leading space
parses as the expected structured envelope, yet the terminal client treats
it as raw passthrough, because the control fast-path requires the first
character of the frame to be a left brace. -/
theorem c4_counterexample :
    parsesAsControlEnvelope " \x7b\"type\":\"connected\"\x7d" = true ∧
    handleTermFrame " \x7b\"type\":\"connected\"\x7d" =
      TermAction.writeRaw " \x7b\"type\":\"connected\"\x7d" ∧
    isControlAction (handleTermFrame " \x7b\"type\":\"connected\"\x7d") = false := by
  refine ⟨by decide, by decide, by decide⟩

/-- C4 (amended): a frame received on a terminal-kind channel is treated as
a control message if and only if its first character is a left brace and it
parses as the expected structured envelope; parse failure, a non-matching
shape, or an envelope not starting with a brace all mean raw passthrough.
(The claim as frozen omits the brace fast-path; see the counterexample.) -/
theorem c4_control_iff_brace_and_envelope (s : String) :
    isControlAction (handleTermFrame s) = (startsWithBrace s && parsesAsControlEnvelope s) := by
  unfold handleTermFrame parsesAsControlEnvelope
  by_cases hb : startsWithBrace s = true
  · simp only [if_pos hb, hb, Bool.true_and]
    cases hj : jsonParse s with
    | none => simp [isControlAction]
    | some v =>
      by_cases h1 : jTypeIs v "connected" = true
      · simp [h1, isControlAction]
      · by_cases h2 : jTypeIs v "error" = true
        · simp [h1, h2, isControlAction]
        · simp [h1, h2, isControlAction]
  · have hb' : startsWithBrace s = false := by
      simpa using hb
    simp [hb', isControlAction]

lemma term_no_resize_aux (uid : String) (cols rows : Nat) (evs : List TermEv) (s : TermState)
    (hc : s.connectedToSprite = false)
    (hs : ∀ c r, TermFrame.resizeF c r ∉ s.sent)
    (hnc : evs.all (fun e => !recvConnectedEv e) = true) :
    (evs.foldl (termStep uid cols rows) s).connectedToSprite = false ∧
    ∀ c r, TermFrame.resizeF c r ∉ (evs.foldl (termStep uid cols rows) s).sent := by
  induction evs generalizing s with
  | nil => exact ⟨hc, hs⟩
  | cons e rest ih =>
    simp only [List.all_cons, Bool.and_eq_true] at hnc
    refine ih _ ?_ ?_ hnc.2
    · cases e with
      | openEv => simpa [termStep] using hc
      | closeEv => simp [termStep]
      | dataEv d => simp [termStep, hc]
      | resizeEv c r => simp [termStep, hc]
      | recvEv f =>
        have hf := hnc.1
        simp only [recvConnectedEv, Bool.not_eq_true'] at hf
        cases hh : handleTermFrame f with
        | ctlConnected sp => rw [hh] at hf; simp at hf
        | ctlError m => simpa [termStep, hh] using hc
        | writeRaw raw => simpa [termStep, hh] using hc
    · cases e with
      | openEv =>
        intro c r
        simp [termStep]
        exact fun h => hs c r h
      | closeEv => simpa [termStep] using hs
      | dataEv d =>
        intro c r
        simp [termStep, hc]
        exact hs c r
      | resizeEv c0 r0 =>
        intro c r
        simp [termStep, hc]
        exact hs c r
      | recvEv f =>
        have hf := hnc.1
        simp only [recvConnectedEv, Bool.not_eq_true'] at hf
        cases hh : handleTermFrame f with
        | ctlConnected sp => rw [hh] at hf; simp at hf
        | ctlError m => simpa [termStep, hh] using hs
        | writeRaw raw => simpa [termStep, hh] using hs

/-- C5 counterexample: in the older unnamed Terminal variant of the
sources, a resize produced right after the socket opens — before any
connected handshake response was received — is sent on the transport
immediately, so the claim that a pre-handshake resize is never delivered
does not hold of that component. -/
theorem c5_counterexample :
    (termRunOld "guest" 80 24 [TermEv.openEv, TermEv.resizeEv 80 24]).sent =
      [TermFrame.connectF "guest", TermFrame.resizeF 80 24] ∧
    (termRunOld "guest" 80 24 [TermEv.openEv, TermEv.resizeEv 80 24]).connectedToSprite
      = false := by
  exact ⟨by decide, by decide⟩

/-- C5 (amended): in the terminal component of src/frontend/src/Terminal.tsx,
where sends are gated by connectedToSpriteRef, a resize produced before the
connected handshake response has been received is dropped — as long as no
connected frame has been delivered, no resize frame is ever sent; the older
unnamed Terminal variant in the sources instead sends resizes whenever the
socket is open, even before the handshake. -/
theorem c5_resize_gated (uid : String) (cols rows : Nat) (evs : List TermEv)
    (hnc : evs.all (fun e => !recvConnectedEv e) = true) :
    ∀ c r, TermFrame.resizeF c r ∉ (termRun uid cols rows evs).sent :=
  (term_no_resize_aux uid cols rows evs termInit rfl (by simp [termInit]) hnc).2

/-- Witness for C5: the gated terminal drops a resize fired right after
open, before any connected frame. -/
theorem c5_resize_gated_witness :
    TermFrame.resizeF 80 24 ∉
      (termRun "guest" 80 24 [TermEv.openEv, TermEv.resizeEv 80 24]).sent :=
  c5_resize_gated "guest" 80 24 [TermEv.openEv, TermEv.resizeEv 80 24] (by decide) 80 24

/-- C6: a get_tree request on a files channel whose backing workspace is
not yet initialized is answered with an error whose reason the client
recognizes as retryable; after initialization completes, a further
get_tree on the same connection state — the handshake flag untouched, no
fresh connect — succeeds with the tree snapshot.  The adapter is modelled
from the spec (the server is not among the sources under src); the
retryable-reason recognizer is the one from FileExplorer.tsx. -/
theorem c6_get_tree_retryable (st : FilesAdapter)
    (hh : st.handshaken = true) (hi : st.initialized = false) :
    handleFilesGetTree st = FilesOut.errorOut "Sandbox not initialized" ∧
    isRetryableFilesError "Sandbox not initialized" = true ∧
    ({ st with initialized := true } : FilesAdapter).handshaken = st.handshaken ∧
    handleFilesGetTree { st with initialized := true } = FilesOut.treeOut st.workspace := by
  refine ⟨?_, by decide, rfl, ?_⟩
  · simp [handleFilesGetTree, hh, hi]
  · simp [handleFilesGetTree, hh]

/-- Witness for C6 at a concrete adapter state with an empty workspace
root. -/
theorem c6_get_tree_retryable_witness :
    handleFilesGetTree ⟨true, false, TreeNode.dir "." "." []⟩ =
      FilesOut.errorOut "Sandbox not initialized" ∧
    handleFilesGetTree ⟨true, true, TreeNode.dir "." "." []⟩ =
      FilesOut.treeOut (TreeNode.dir "." "." []) :=
  ⟨(c6_get_tree_retryable ⟨true, false, TreeNode.dir "." "." []⟩ rfl rfl).1,
   (c6_get_tree_retryable ⟨true, false, TreeNode.dir "." "." []⟩ rfl rfl).2.2.2⟩

/-- C7: after every successful connect handshake on a chat channel the
server immediately sends — right after the connected event — a status
event carrying the session's current queue size and processing flag
(handshake modelled from the spec, the server not being among the sources
under src); feeding those events to the chat client's source-translated
handler leaves the client connected with exactly that queue size and
processing flag, no history request needed. -/
theorem c7_status_replay (maxq : Nat) (reg : List (String × QueueState)) (uid fid : String)
    (cl : ChatAppState) :
    (chatHandshake maxq reg uid).2.2 =
      [WSEvent.connectedW,
       WSEvent.statusW (some (queueLen (chatHandshake maxq reg uid).1.msgs))
         (some (sessionIsProcessing (chatHandshake maxq reg uid).1))] ∧
    ((chatHandshake maxq reg uid).2.2.foldl (handleWS fid) cl).wsConnected = true ∧
    ((chatHandshake maxq reg uid).2.2.foldl (handleWS fid) cl).queueSize =
      queueLen (chatHandshake maxq reg uid).1.msgs ∧
    ((chatHandshake maxq reg uid).2.2.foldl (handleWS fid) cl).queueProcessing =
      sessionIsProcessing (chatHandshake maxq reg uid).1 := by
  refine ⟨rfl, ?_, ?_, ?_⟩ <;> simp [chatHandshake, handleWS]

/-- C8: on every close of any of the three channel connections — chat,
terminal, files — the client schedules a reconnect attempt after its fixed
few-second delay (3000 ms for chat, 2000 ms for terminal and files), from
any state whatsoever, so every connection loss leads to another attempt,
indefinitely. -/
theorem c8_reconnect_on_close (uid : String) (cols rows : Nat)
    (cs : ChatConn) (ts : TermState) (fs : FilesState) :
    (chatStep uid cs ChatEv.closeC).reconnectDelayMs = some 3000 ∧
    (termStep uid cols rows ts TermEv.closeEv).reconnectDelayMs = some 2000 ∧
    (filesStep uid fs FilesEv.closeFE).reconnectDelayMs = some 2000 := by
  exact ⟨rfl, rfl, rfl⟩

lemma head?_append_singleton {α : Type} (l : List α) (x a : α) (h : l.head? = some a) :
    (l ++ [x]).head? = some a := by
  cases l with
  | nil => simp at h
  | cons b t => simpa using h

lemma chatStep_submit_sent (uid : String) (s : ChatConn) (content : String) (draw : List Nat) :
    (chatStep uid s (ChatEv.submitC content draw)).sent = s.sent ∨
    (s.opened = true ∧ (chatStep uid s (ChatEv.submitC content draw)).sent =
      s.sent ++ [ChatFrame.messageCF (jsTrim content) (genId draw)]) := by
  simp only [chatStep]
  by_cases h1 : (jsTrim content == "") = true
  · simp [h1]
  · by_cases h2 : s.opened = true
    · right
      exact ⟨h2, by simp [h1, h2]⟩
    · left
      have h2' : s.opened = false := by simpa using h2
      simp [h1, h2']

lemma chatStep_submit_opened (uid : String) (s : ChatConn) (content : String)
    (draw : List Nat) :
    (chatStep uid s (ChatEv.submitC content draw)).opened = s.opened := by
  simp only [chatStep]
  by_cases h1 : (jsTrim content == "") = true
  · simp [h1]
  · by_cases h2 : s.opened = true
    · simp [h1, h2]
    · have h2' : s.opened = false := by simpa using h2
      simp [h1, h2']

lemma chat_first_frame_aux (uid : String) (evs : List ChatEv) (s : ChatConn)
    (hinv : s.sent.head? = some (ChatFrame.connectCF uid) ∨ (s.sent = [] ∧ s.opened = false)) :
    (evs.foldl (chatStep uid) s).sent.head? = some (ChatFrame.connectCF uid) ∨
      ((evs.foldl (chatStep uid) s).sent = [] ∧
        (evs.foldl (chatStep uid) s).opened = false) := by
  induction evs generalizing s with
  | nil => exact hinv
  | cons e rest ih =>
    refine ih _ ?_
    cases e with
    | openC =>
      left
      rcases hinv with h | h
      · exact head?_append_singleton _ _ _ h
      · rw [show (chatStep uid s ChatEv.openC).sent = s.sent ++ [ChatFrame.connectCF uid]
          from rfl, h.1]
        rfl
    | closeC =>
      rcases hinv with h | h
      · left
        exact h
      · right
        exact ⟨h.1, rfl⟩
    | submitC content draw =>
      rcases chatStep_submit_sent uid s content draw with hs | ⟨hop, hs⟩
      · rcases hinv with h | h
        · left
          rw [hs]
          exact h
        · right
          refine ⟨by rw [hs]; exact h.1, ?_⟩
          rw [chatStep_submit_opened]
          exact h.2
      · rcases hinv with h | h
        · left
          rw [hs]
          exact head?_append_singleton _ _ _ h
        · exact absurd hop (by simp [h.2])
    | recvC fid w =>
      rcases hinv with h | h
      · left
        exact h
      · right
        exact ⟨h.1, h.2⟩

lemma term_first_frame_aux (uid : String) (cols rows : Nat) (evs : List TermEv) (s : TermState)
    (hwf : termWfAux s.opened evs = true)
    (hinv : s.sent.head? = some (TermFrame.connectF uid) ∨ (s.sent = [] ∧ s.opened = false)) :
    (evs.foldl (termStep uid cols rows) s).sent.head? = some (TermFrame.connectF uid) ∨
      ((evs.foldl (termStep uid cols rows) s).sent = [] ∧
        (evs.foldl (termStep uid cols rows) s).opened = false) := by
  induction evs generalizing s with
  | nil => exact hinv
  | cons e rest ih =>
    cases e with
    | openEv =>
      refine ih _ hwf ?_
      left
      rcases hinv with h | h
      · exact head?_append_singleton _ _ _ h
      · rw [show (termStep uid cols rows s TermEv.openEv).sent =
            s.sent ++ [TermFrame.connectF uid] from rfl, h.1]
        rfl
    | closeEv =>
      refine ih _ hwf ?_
      rcases hinv with h | h
      · left
        exact h
      · right
        exact ⟨h.1, rfl⟩
    | dataEv d =>
      have ho : (termStep uid cols rows s (TermEv.dataEv d)).opened = s.opened := by
        by_cases hb : (s.opened && s.connectedToSprite) = true <;> simp [termStep, hb]
      refine ih _ (by rw [ho]; exact hwf) ?_
      by_cases hb : (s.opened && s.connectedToSprite) = true
      · have hsent : (termStep uid cols rows s (TermEv.dataEv d)).sent =
            s.sent ++ [TermFrame.dataF d] := by
          simp [termStep, hb]
        rcases hinv with h | h
        · left
          rw [hsent]
          exact head?_append_singleton _ _ _ h
        · exact absurd hb (by simp [h.2])
      · have hsent : (termStep uid cols rows s (TermEv.dataEv d)).sent = s.sent := by
          simp [termStep, hb]
        rcases hinv with h | h
        · left
          rw [hsent]
          exact h
        · right
          rw [hsent, ho]
          exact h
    | resizeEv c r =>
      have ho : (termStep uid cols rows s (TermEv.resizeEv c r)).opened = s.opened := by
        by_cases hb : (s.opened && s.connectedToSprite) = true <;> simp [termStep, hb]
      refine ih _ (by rw [ho]; exact hwf) ?_
      by_cases hb : (s.opened && s.connectedToSprite) = true
      · have hsent : (termStep uid cols rows s (TermEv.resizeEv c r)).sent =
            s.sent ++ [TermFrame.resizeF c r] := by
          simp [termStep, hb]
        rcases hinv with h | h
        · left
          rw [hsent]
          exact head?_append_singleton _ _ _ h
        · exact absurd hb (by simp [h.2])
      · have hsent : (termStep uid cols rows s (TermEv.resizeEv c r)).sent = s.sent := by
          simp [termStep, hb]
        rcases hinv with h | h
        · left
          rw [hsent]
          exact h
        · right
          rw [hsent, ho]
          exact h
    | recvEv f =>
      have hw2 : s.opened = true ∧ termWfAux s.opened rest = true := by
        have hh := hwf
        rw [show termWfAux s.opened (TermEv.recvEv f :: rest) =
            (s.opened && termWfAux s.opened rest) from rfl] at hh
        simpa using hh
      have ho : (termStep uid cols rows s (TermEv.recvEv f)).opened = s.opened := by
        cases hh : handleTermFrame f <;> simp [termStep, hh]
      refine ih _ (by rw [ho]; exact hw2.2) ?_
      rcases hinv with h | h
      · left
        cases hh : handleTermFrame f with
        | ctlConnected sp =>
          have hsent : (termStep uid cols rows s (TermEv.recvEv f)).sent =
              s.sent ++ [TermFrame.resizeF cols rows] := by
            simp [termStep, hh]
          rw [hsent]
          exact head?_append_singleton _ _ _ h
        | ctlError m =>
          have hsent : (termStep uid cols rows s (TermEv.recvEv f)).sent = s.sent := by
            simp [termStep, hh]
          rw [hsent]
          exact h
        | writeRaw raw =>
          have hsent : (termStep uid cols rows s (TermEv.recvEv f)).sent = s.sent := by
            simp [termStep, hh]
          rw [hsent]
          exact h
      · exact absurd hw2.1 (by simp [h.2])

lemma files_first_frame_aux (uid : String) (evs : List FilesEv) (s : FilesState)
    (hwf : filesWfAux s.opened evs = true)
    (hinv : s.sent.head? = some (FilesFrame.connectFF uid) ∨ (s.sent = [] ∧ s.opened = false)) :
    (evs.foldl (filesStep uid) s).sent.head? = some (FilesFrame.connectFF uid) ∨
      ((evs.foldl (filesStep uid) s).sent = [] ∧
        (evs.foldl (filesStep uid) s).opened = false) := by
  induction evs generalizing s with
  | nil => exact hinv
  | cons e rest ih =>
    cases e with
    | openFE =>
      refine ih _ hwf ?_
      left
      rcases hinv with h | h
      · exact head?_append_singleton _ _ _ h
      · rw [show (filesStep uid s FilesEv.openFE).sent =
            s.sent ++ [FilesFrame.connectFF uid] from rfl, h.1]
        rfl
    | closeFE =>
      refine ih _ hwf ?_
      rcases hinv with h | h
      · left
        exact h
      · right
        exact ⟨h.1, rfl⟩
    | recvConnectedFE =>
      have hw2 : s.opened = true ∧ filesWfAux s.opened rest = true := by
        have hh := hwf
        rw [show filesWfAux s.opened (FilesEv.recvConnectedFE :: rest) =
            (s.opened && filesWfAux s.opened rest) from rfl] at hh
        simpa using hh
      refine ih _ hw2.2 ?_
      rcases hinv with h | h
      · left
        exact head?_append_singleton _ _ _ h
      · exact absurd hw2.1 (by simp [h.2])
    | recvTreeFE t =>
      have hw2 : s.opened = true ∧ filesWfAux s.opened rest = true := by
        have hh := hwf
        rw [show filesWfAux s.opened (FilesEv.recvTreeFE t :: rest) =
            (s.opened && filesWfAux s.opened rest) from rfl] at hh
        simpa using hh
      refine ih _ hw2.2 ?_
      rcases hinv with h | h
      · left
        exact h
      · right
        exact ⟨h.1, h.2⟩
    | recvFileEventFE =>
      have hw2 : s.opened = true ∧ filesWfAux s.opened rest = true := by
        have hh := hwf
        rw [show filesWfAux s.opened (FilesEv.recvFileEventFE :: rest) =
            (s.opened && filesWfAux s.opened rest) from rfl] at hh
        simpa using hh
      have ho : (filesStep uid s FilesEv.recvFileEventFE).opened = s.opened := by
        by_cases hb : s.opened = true <;> simp [filesStep, hb]
      refine ih _ (by rw [ho]; exact hw2.2) ?_
      rcases hinv with h | h
      · by_cases hb : s.opened = true
        · have hsent : (filesStep uid s FilesEv.recvFileEventFE).sent =
              s.sent ++ [FilesFrame.getTreeFF ""] := by
            simp [filesStep, hb]
          left
          rw [hsent]
          exact head?_append_singleton _ _ _ h
        · have hsent : (filesStep uid s FilesEv.recvFileEventFE).sent = s.sent := by
            simp [filesStep, hb]
          left
          rw [hsent]
          exact h
      · exact absurd hw2.1 (by simp [h.2])
    | recvErrorFE err =>
      have hw2 : s.opened = true ∧ filesWfAux s.opened rest = true := by
        have hh := hwf
        rw [show filesWfAux s.opened (FilesEv.recvErrorFE err :: rest) =
            (s.opened && filesWfAux s.opened rest) from rfl] at hh
        simpa using hh
      have ho : (filesStep uid s (FilesEv.recvErrorFE err)).opened = s.opened := by
        by_cases hr : isRetryableFilesError err = true <;> simp [filesStep, hr]
      have hsent : (filesStep uid s (FilesEv.recvErrorFE err)).sent = s.sent := by
        by_cases hr : isRetryableFilesError err = true <;> simp [filesStep, hr]
      refine ih _ (by rw [ho]; exact hw2.2) ?_
      rcases hinv with h | h
      · left
        rw [hsent]
        exact h
      · exact absurd hw2.1 (by simp [h.2])
    | recvBadFE =>
      have hw2 : s.opened = true ∧ filesWfAux s.opened rest = true := by
        have hh := hwf
        rw [show filesWfAux s.opened (FilesEv.recvBadFE :: rest) =
            (s.opened && filesWfAux s.opened rest) from rfl] at hh
        simpa using hh
      refine ih _ hw2.2 ?_
      rcases hinv with h | h
      · left
        exact h
      · exact absurd hw2.1 (by simp [h.2])
    | retryFireFE =>
      have ho : (filesStep uid s FilesEv.retryFireFE).opened = s.opened := by
        by_cases hp : s.retryPending = true
        · by_cases hb : s.opened = true <;> simp [filesStep, hp, hb]
        · simp [filesStep, hp]
      refine ih _ (by rw [ho]; exact hwf) ?_
      by_cases hp : s.retryPending = true
      · by_cases hb : s.opened = true
        · have hsent : (filesStep uid s FilesEv.retryFireFE).sent =
              s.sent ++ [FilesFrame.getTreeFF ""] := by
            simp [filesStep, hp, hb]
          rcases hinv with h | h
          · left
            rw [hsent]
            exact head?_append_singleton _ _ _ h
          · exact absurd hb (by simp [h.2])
        · have hsent : (filesStep uid s FilesEv.retryFireFE).sent = s.sent := by
            simp [filesStep, hp, hb]
          rcases hinv with h | h
          · left
            rw [hsent]
            exact h
          · right
            rw [hsent, ho]
            exact h
      · have hsent : (filesStep uid s FilesEv.retryFireFE).sent = s.sent := by
          simp [filesStep, hp]
        rcases hinv with h | h
        · left
          rw [hsent]
          exact h
        · right
          rw [hsent, ho]
          exact h
    | refreshFE =>
      have ho : (filesStep uid s FilesEv.refreshFE).opened = s.opened := by
        by_cases hb : s.opened = true <;> simp [filesStep, hb]
      refine ih _ (by rw [ho]; exact hwf) ?_
      by_cases hb : s.opened = true
      · have hsent : (filesStep uid s FilesEv.refreshFE).sent =
            s.sent ++ [FilesFrame.getTreeFF ""] := by
          simp [filesStep, hb]
        rcases hinv with h | h
        · left
          rw [hsent]
          exact head?_append_singleton _ _ _ h
        · exact absurd hb (by simp [h.2])
      · have hsent : (filesStep uid s FilesEv.refreshFE).sent = s.sent := by
          simp [filesStep, hb]
        rcases hinv with h | h
        · left
          rw [hsent]
          exact h
        · right
          rw [hsent, ho]
          exact h

/-- C3: on every channel connection of every kind — chat, terminal, files —
the first frame sent on the transport is the JSON connect envelope bearing
the user id, and nothing else is sent before it: for every well-formed
event trace (receive events only while the socket is open), the send log is
either still empty or begins with the connect frame. -/
theorem c3_connect_first (uid : String) (cols rows : Nat)
    (cevs : List ChatEv) (tevs : List TermEv) (fevs : List FilesEv)
    (hwt : termWf tevs = true) (hwfl : filesWf fevs = true) :
    ((chatRun uid cevs).sent ≠ [] →
      (chatRun uid cevs).sent.head? = some (ChatFrame.connectCF uid)) ∧
    ((termRun uid cols rows tevs).sent ≠ [] →
      (termRun uid cols rows tevs).sent.head? = some (TermFrame.connectF uid)) ∧
    ((filesRun uid fevs).sent ≠ [] →
      (filesRun uid fevs).sent.head? = some (FilesFrame.connectFF uid)) := by
  refine ⟨?_, ?_, ?_⟩
  · intro hne
    rcases chat_first_frame_aux uid cevs chatConnInit (Or.inr ⟨rfl, rfl⟩) with h | h
    · exact h
    · exact absurd h.1 hne
  · intro hne
    rcases term_first_frame_aux uid cols rows tevs termInit hwt (Or.inr ⟨rfl, rfl⟩) with h | h
    · exact h
    · exact absurd h.1 hne
  · intro hne
    rcases files_first_frame_aux uid fevs filesInit hwfl (Or.inr ⟨rfl, rfl⟩) with h | h
    · exact h
    · exact absurd h.1 hne

/-- Witness for C3 on concrete one-open traces of each kind. -/
theorem c3_connect_first_witness :
    (chatRun "guest" [ChatEv.openC]).sent.head? = some (ChatFrame.connectCF "guest") ∧
    (termRun "guest" 80 24 [TermEv.openEv]).sent.head? = some (TermFrame.connectF "guest") ∧
    (filesRun "guest" [FilesEv.openFE]).sent.head? = some (FilesFrame.connectFF "guest") :=
  ⟨(c3_connect_first "guest" 80 24 [ChatEv.openC] [TermEv.openEv] [FilesEv.openFE]
      (by decide) (by decide)).1 (by decide),
   (c3_connect_first "guest" 80 24 [ChatEv.openC] [TermEv.openEv] [FilesEv.openFE]
      (by decide) (by decide)).2.1 (by decide),
   (c3_connect_first "guest" 80 24 [ChatEv.openC] [TermEv.openEv] [FilesEv.openFE]
      (by decide) (by decide)).2.2 (by decide)⟩

lemma base36Char_inj_fin : ∀ a b : Fin 36, base36Char a.val = base36Char b.val → a = b := by
  decide

lemma map_base36_inj (l1 : List Nat) :
    ∀ l2 : List Nat, (∀ n ∈ l1, n < 36) → (∀ n ∈ l2, n < 36) →
      l1.map base36Char = l2.map base36Char → l1 = l2 := by
  induction l1 with
  | nil =>
    intro l2 _ _ h
    cases l2 with
    | nil => rfl
    | cons b t => simp at h
  | cons a t ih =>
    intro l2 h1 h2 h
    cases l2 with
    | nil => simp at h
    | cons b t2 =>
      simp only [List.map_cons, List.cons.injEq] at h
      have hab : a = b := by
        have hfin := base36Char_inj_fin ⟨a, h1 a (by simp)⟩ ⟨b, h2 b (by simp)⟩ h.1
        exact congrArg Fin.val hfin
      subst hab
      have ht := ih t2 (fun n hn => h1 n (by simp [hn])) (fun n hn => h2 n (by simp [hn])) h.2
      rw [ht]

/-- C9 counterexample: two submissions whose Math.random draws agree on the
first seven base-36 fractional digits — here two genuinely distinct draws —
produce the same client-generated message id, so after submitting both on
one Session the transcript holds two QueuedMessages with equal ids: the
identifiers are not pairwise unique. -/
theorem c9_counterexample :
    ([18, 1, 2, 3, 4, 5, 6, 7] : List Nat) ≠ [18, 1, 2, 3, 4, 5, 6, 8] ∧
    genId [18, 1, 2, 3, 4, 5, 6, 7] = genId [18, 1, 2, 3, 4, 5, 6, 8] ∧
    ¬ ((chatRun "guest"
        [ChatEv.openC, ChatEv.submitC "hello" [18, 1, 2, 3, 4, 5, 6, 7],
         ChatEv.submitC "world" [18, 1, 2, 3, 4, 5, 6, 8]]).app.messages.map CMsg.id).Nodup := by
  refine ⟨by decide, by decide, by decide⟩

/-- C9 (amended): the client-generated QueuedMessage identifiers are the
first seven base-36 fractional digits of Math.random draws; they are
pairwise unique within the Session exactly when those seven-digit prefixes
are pairwise distinct — the code enforces nothing beyond that, so
uniqueness is only probabilistic, not an invariant. -/
theorem c9_ids_unique_iff_prefixes_distinct (draws : List (List Nat))
    (hvalid : ∀ d ∈ draws, ∀ n ∈ d, n < 36)
    (hpref : (draws.map (fun d => d.take 7)).Nodup) :
    (draws.map genId).Nodup := by
  have hcomp : draws.map genId =
      (draws.map (fun d => d.take 7)).map (fun pre => String.mk (pre.map base36Char)) := by
    simp [genId, List.map_map]
  rw [hcomp]
  refine List.Nodup.map_on ?_ hpref
  intro x hx y hy hxy
  obtain ⟨dx, hdx, hxe⟩ := List.mem_map.mp hx
  obtain ⟨dy, hdy, hye⟩ := List.mem_map.mp hy
  subst hxe
  subst hye
  have hlists : (dx.take 7).map base36Char = (dy.take 7).map base36Char := by
    injection hxy
  exact map_base36_inj (dx.take 7) (dy.take 7)
    (fun n hn => hvalid dx hdx n (List.take_subset _ _ hn))
    (fun n hn => hvalid dy hdy n (List.take_subset _ _ hn)) hlists

/-- Witness for the amended C9 at two draws with distinct prefixes. -/
theorem c9_ids_unique_witness :
    ((([[1], [2]] : List (List Nat)).map genId)).Nodup :=
  c9_ids_unique_iff_prefixes_distinct [[1], [2]] (by decide) (by decide)

/-- C10: when the chat client receives a queued event carrying a (truthy)
message_id, every transcript entry with that id gets displayed status
cancelled if the event's status equals skipped and queued otherwise — with
the reported queue position stored — and, additionally, status queue_full
surfaces the queue-full error banner; skipped is thus part of the protocol
the client accepts. -/
theorem c10_queued_event (s : ChatAppState) (fid mid : String) (st : Option String)
    (qp qs : Option Nat) (hmid : mid ≠ "") :
    (∀ m ∈ (handleWS fid s (WSEvent.queuedW (some mid) st qp qs)).messages,
      m.id = mid →
        m.status = some (if st == some "skipped" then CStatus.cancelledC else CStatus.queuedC) ∧
        m.queuePosition = qp) ∧
    (st = some "queue_full" →
      (handleWS fid s (WSEvent.queuedW (some mid) st qp qs)).errorMsg =
        some ("Queue is full (max " ++ optNatText qs ++ " messages)")) := by
  have ht : truthyStr (some mid) = true := by
    simp [truthyStr]
    exact hmid
  have hmsgs : (handleWS fid s (WSEvent.queuedW (some mid) st qp qs)).messages =
      updateMessageStatus s.messages mid
        (if st == some "skipped" then CStatus.cancelledC else CStatus.queuedC) qp := by
    by_cases hqf : (st == some "queue_full") = true
    · simp [handleWS, ht, hqf]
    · simp [handleWS, ht, hqf]
  constructor
  · intro m hm hid
    rw [hmsgs] at hm
    simp only [updateMessageStatus, List.mem_map] at hm
    obtain ⟨m0, hm0, hfm⟩ := hm
    by_cases hb : (m0.id == mid) = true
    · rw [if_pos hb] at hfm
      rw [← hfm]
      exact ⟨rfl, rfl⟩
    · rw [if_neg hb] at hfm
      exact absurd (by rw [hfm, hid]; simp : (m0.id == mid) = true) hb
  · intro hqf
    subst hqf
    simp [handleWS, ht]

/-- Witness for C10 at a concrete state holding the message m1, receiving
queued with status queue_full. -/
theorem c10_queued_event_witness :
    ("m1" : String) ≠ "" ∧
    (handleWS "f" c10State
        (WSEvent.queuedW (some "m1") (some "queue_full") (some 2) (some 5))).errorMsg =
      some ("Queue is full (max " ++ optNatText (some 5) ++ " messages)") :=
  ⟨by decide,
   (c10_queued_event c10State "f" "m1" (some "queue_full") (some 2) (some 5) (by decide)).2 rfl⟩
